import Mathlib

set_option autoImplicit false

/-!
Shallow embedding of the custos compute-buffer runtime: the allocation cache,
identity counter, dependency graph, autograd tape and the per-backend buffer
operations, together with proofs of the specification's testable properties.

Sources embedded from the repository: `src/autograd.rs` (Tape, Gradients),
`src/op_traits.rs` (CacheBuf), `src/devices/cpu/cpu_device.rs` (Alloc for CPU,
Read, WriteBuf), `src/devices/opencl/cl_device.rs` (Alloc for OpenCL),
`src/devices/cuda/cuda_device.rs` (Alloc for CUDA),
`src/devices/opencl/unified.rs` (to_unified, construct_buffer),
`src/buffer/num.rs` (scalar buffers), `src/buffer/impl_from.rs`
(Buffer construction from slices), `src/devices/opencl/kernel_cache.rs` and
`src/devices/cuda/kernel_cache.rs` (kernel caches).

The files `devices/cache.rs` (the `Cache` type and `Cache::get`), `count.rs`
(the thread-local identity counter) and `graph.rs` (the dependency graph) are
not part of the available sources; where a definition depends on them it is
modelled from the specification, as indicated in its doc comment.
-/

namespace Custos

/-- Error kinds of the runtime (spec section 7). `InvalidLength` also stands for
the `assert!(len > 0, "invalid buffer len: 0")` failure of the device `alloc`
implementations: fallible code is embedded as `Except`, and an assertion
failure is a failure of the call. `ApiError` stands for any error surfaced by
the opaque driver bindings (e.g. `create_buffer`). -/
inductive DevError where
  | InvalidLength
  | ConstructError
  | ApiError
deriving DecidableEq, Repr

/-- Allocation flag of a buffer, from the `AllocFlag` enum: `None` is an
exclusively owned allocation freed on drop, `Cache` is shared via the cache,
`Wrapped` is external memory never freed by the runtime. -/
inductive AllocFlag where
  | None
  | Cache
  | Wrapped
deriving DecidableEq, Repr

/-- Modelled from the spec: a dependency-graph node `GraphNode = {idx, deps,
len}` (spec section 3); `graph.rs` is not among the available sources. -/
structure GraphNode where
  idx : Nat
  deps : List Nat
  len : Nat
deriving DecidableEq, Repr

/-- Modelled from the spec: `Ident — {count: u64, len: usize}` identifying a
logical buffer slot (spec section 3); `count.rs` is not among the available
sources. -/
structure Ident where
  count : Nat
  len : Nat
deriving DecidableEq, Repr

/-- A typed buffer handle as produced by the cache or the device allocators:
the physical allocation it points at (`allocId`), its length and its
allocation flag. -/
structure Buffer where
  allocId : Nat
  len : Nat
  flag : AllocFlag
deriving DecidableEq, Repr

/-- Association-list lookup (first match), used for the cache map, the heap
and the reference counts. -/
def alookup {κ β : Type} [DecidableEq κ] (k : κ) : List (κ × β) → Option β
  | [] => none
  | (k', v) :: rest => if k' = k then some v else alookup k rest

/-- Remove every binding of a key. -/
def aremove {κ β : Type} [DecidableEq κ] (k : κ) (l : List (κ × β)) : List (κ × β) :=
  l.filter (fun p => decide (p.1 ≠ k))

/-- Insert a binding, replacing any previous binding of the key (the `HashMap
insert` semantics). -/
def aupdate {κ β : Type} [DecidableEq κ] (k : κ) (v : β) (l : List (κ × β)) : List (κ × β) :=
  (k, v) :: aremove k l

theorem alookup_aupdate_self {κ β : Type} [DecidableEq κ] (k : κ) (v : β) (l : List (κ × β)) :
    alookup k (aupdate k v l) = some v := by
  simp [alookup, aupdate]

theorem aremove_cons_self {κ β : Type} [DecidableEq κ] {k : κ} {p : κ × β} {rest : List (κ × β)}
    (hp : p.1 = k) : aremove k (p :: rest) = aremove k rest := by
  simp [aremove, List.filter_cons, hp]

theorem aremove_cons_ne {κ β : Type} [DecidableEq κ] {k : κ} {p : κ × β} {rest : List (κ × β)}
    (hp : p.1 ≠ k) : aremove k (p :: rest) = p :: aremove k rest := by
  simp [aremove, List.filter_cons, hp]

theorem alookup_aremove_self {κ β : Type} [DecidableEq κ] (k : κ) (l : List (κ × β)) :
    alookup k (aremove k l) = none := by
  induction l with
  | nil => rfl
  | cons p rest ih =>
    by_cases hp : p.1 = k
    · rw [aremove_cons_self hp]
      exact ih
    · rw [aremove_cons_ne hp]
      simp only [alookup, if_neg hp]
      exact ih

theorem alookup_aremove_ne {κ β : Type} [DecidableEq κ] {k k' : κ} (l : List (κ × β))
    (h : k' ≠ k) : alookup k' (aremove k l) = alookup k' l := by
  induction l with
  | nil => rfl
  | cons p rest ih =>
    by_cases hp : p.1 = k
    · rw [aremove_cons_self hp]
      have hpk : p.1 ≠ k' := fun hc => h (hc ▸ hp)
      rw [ih]
      simp only [alookup, if_neg hpk]
    · rw [aremove_cons_ne hp]
      simp only [alookup]
      by_cases hk : p.1 = k'
      · simp only [if_pos hk]
      · simp only [if_neg hk, ih]

theorem alookup_aupdate_ne {κ β : Type} [DecidableEq κ] {k k' : κ} (v : β) (l : List (κ × β))
    (h : k' ≠ k) : alookup k' (aupdate k v l) = alookup k' l := by
  have hk : ¬k = k' := fun hc => h hc.symm
  simp only [aupdate, alookup, if_neg hk]
  exact alookup_aremove_ne l h

/-- The per-device state the embedded operations act on: the identity counter
(`count.rs`, modelled from spec section 4.1), the cache map from a slot's
`count` to the shared allocation stored there with its length (modelled from
spec sections 3 and 4.3: a hit requires the stored length to match, a miss
replaces the entry at that slot), the heap of live physical allocations and
their contents, the reference count of each allocation (spec section 3: the
cache and zero-or-more live buffers hold shared ownership), the next fresh
physical allocation id, and the dependency graph. -/
structure State (α : Type) where
  count : Nat
  nodes : List (Nat × (Nat × Nat))
  heap : List (Nat × List α)
  rc : List (Nat × Nat)
  nextAlloc : Nat
  graph : List GraphNode
deriving DecidableEq, Repr

/-- The empty device state. -/
def initState (α : Type) : State α :=
  { count := 0, nodes := [], heap := [], rc := [], nextAlloc := 0, graph := [] }

/-- Modelled from the spec: `set_count` / `reset_counter(value)` sets the
identity counter back to a chosen value (spec section 4.1). -/
def setCount {α : Type} (c : Nat) (s : State α) : State α :=
  { s with count := c }

/-- Acquire one more shared reference to an allocation (an `Rc` clone held by
a newly returned buffer). -/
def rcIncr {α : Type} (aid : Nat) (s : State α) : State α :=
  match alookup aid s.rc with
  | some n => { s with rc := aupdate aid (n + 1) s.rc }
  | none => s

/-- Drop one shared reference to an allocation; when the last reference is
dropped the physical allocation is freed (removed from the heap). -/
def rcDecrFree {α : Type} (aid : Nat) (s : State α) : State α :=
  match alookup aid s.rc with
  | some n =>
    if n ≤ 1 then { s with rc := aremove aid s.rc, heap := aremove aid s.heap }
    else { s with rc := aupdate aid (n - 1) s.rc }
  | none => s

/-- Dropping a `Buffer` handle: a `flag = None` buffer owns its allocation
exclusively and frees it, a `flag = Cache` buffer drops its shared reference
(the allocation stays alive while the cache or another holder still references
it), a wrapped buffer never frees. -/
def dropBuffer {α : Type} (b : Buffer) (s : State α) : State α :=
  match b.flag with
  | AllocFlag.None => rcDecrFree b.allocId s
  | AllocFlag.Cache => rcDecrFree b.allocId s
  | AllocFlag.Wrapped => s

/-- Modelled from the spec: the allocate-and-insert path of `Cache::get`
(spec section 4.3 step 3); `devices/cache.rs` is not among the available
sources. A zero-length request is rejected with `InvalidLength`; otherwise the
raw abstraction allocates `ident.len` default-initialised elements, the
`add_node` callback registers a graph node, and the new shared allocation is
inserted at the slot, replacing — and thereby dropping the cache's reference
to — any previous entry (`old`) at that slot. The new allocation's reference
count is 2: one reference held by the cache map, one by the returned buffer. -/
def cacheMiss {α : Type} [Inhabited α] (ident : Ident)
    (addNode : List GraphNode → List GraphNode) (s : State α) (old : Option Nat) :
    Except DevError (Buffer × State α) :=
  if ident.len = 0 then Except.error DevError.InvalidLength
  else
    let aid := s.nextAlloc
    let s1 : State α :=
      { s with
        heap := aupdate aid (List.replicate ident.len default) s.heap
        rc := aupdate aid 2 s.rc
        nextAlloc := aid + 1
        graph := addNode s.graph
        nodes := aupdate ident.count (aid, ident.len) s.nodes }
    let s2 := match old with
      | some oldId => rcDecrFree oldId s1
      | none => s1
    Except.ok ({ allocId := aid, len := ident.len, flag := AllocFlag.Cache }, s2)

/-- Modelled from the spec: `Cache::get(device, ident, add_node_fn)` (spec
section 4.3); `devices/cache.rs` is not among the available sources. Look the
slot up; on a hit (identity present and stored length matching `ident.len`)
wrap the existing shared allocation in a buffer with `flag = Cache` — no
allocation, no graph mutation; on a miss allocate, register the graph node and
insert, replacing any previous entry at the slot. -/
def cacheGet {α : Type} [Inhabited α] (ident : Ident)
    (addNode : List GraphNode → List GraphNode) (s : State α) :
    Except DevError (Buffer × State α) :=
  match alookup ident.count s.nodes with
  | some (aid, slen) =>
    if slen = ident.len then
      Except.ok ({ allocId := aid, len := slen, flag := AllocFlag.Cache }, rcIncr aid s)
    else
      cacheMiss ident addNode s (some aid)
  | none => cacheMiss ident addNode s none

/-- The `CachedLeaf` graph callback used by `CacheBuf::cached`: appends a leaf
node of the given length (spec section 4.4, `add_leaf`). -/
def addLeaf (len : Nat) (g : List GraphNode) : List GraphNode :=
  g ++ [{ idx := g.length, deps := [], len := len }]

/-- `CacheBuf::cached(device, len)` (`src/op_traits.rs`,
`src/devices/cpu/cpu_device.rs`): advances the identity counter to produce
`Ident { count, len }` and calls `Cache::get` with the `CachedLeaf` graph
callback. -/
def cached {α : Type} [Inhabited α] (len : Nat) (s : State α) :
    Except DevError (Buffer × State α) :=
  cacheGet { count := s.count, len := len } (addLeaf len) { s with count := s.count + 1 }

/-- A fixed sequence of cache-backed buffer requests, replayed in order. -/
def runSeq {α : Type} [Inhabited α] (reqs : List Nat) (s : State α) :
    Except DevError (List Buffer × State α) :=
  match reqs with
  | [] => Except.ok ([], s)
  | len :: rest =>
    match cached len s with
    | Except.error e => Except.error e
    | Except.ok (b, s1) =>
      match runSeq rest s1 with
      | Except.error e => Except.error e
      | Except.ok (bs, s2) => Except.ok (b :: bs, s2)

/-- Read the data of a buffer (`Read for CPU`: the slice behind the pointer). -/
def readBuf {α : Type} (b : Buffer) (s : State α) : List α :=
  (alookup b.allocId s.heap).getD []

/-- Write data to a buffer (`WriteBuf for CPU`: `buf.copy_from_slice(data)`). -/
def writeBuf {α : Type} (b : Buffer) (data : List α) (s : State α) : State α :=
  { s with heap := aupdate b.allocId data s.heap }

/-- `Alloc::alloc` for the CPU (`src/devices/cpu/cpu_device.rs`): the
`assert!(len > 0, "invalid buffer len: 0")` failure is embedded as
`InvalidLength`; otherwise `CPUPtr::new` yields `len` default-initialised
elements (the untyped shape `()` has `S::LEN = 0`, so the shape branch never
raises the length). -/
def cpuAlloc (α : Type) [Inhabited α] (len : Nat) : Except DevError (List α) :=
  if len = 0 then Except.error DevError.InvalidLength
  else Except.ok (List.replicate len (default : α))

/-- `Alloc::alloc` for OpenCL (`src/devices/opencl/cl_device.rs`): the same
`assert!(len > 0, "invalid buffer len: 0")` guard precedes the call to the
opaque `create_buffer`; the allocation is uninitialised device memory, so only
its length is modelled. -/
def clAlloc (len : Nat) : Except DevError Nat :=
  if len = 0 then Except.error DevError.InvalidLength
  else Except.ok len

/-- Modelled from the spec: `cumalloc` (the CUDA driver binding used by
`Alloc::alloc` for CUDA) is not among the available sources; spec sections 4.2
and 8 require a zero-length allocation request to fail. -/
def cumalloc (len : Nat) : Except DevError Nat :=
  if len = 0 then Except.error DevError.InvalidLength
  else Except.ok len

/-- `Alloc::alloc` for CUDA (`src/devices/cuda/cuda_device.rs`): delegates to
`cumalloc(len)`. -/
def cudaAlloc (len : Nat) : Except DevError Nat :=
  cumalloc len

/-- The autograd tape (`src/autograd.rs`): the gradients state and the ordered
list of pushed backward closures. In the source each closure receives
`(&mut Gradients<D>, &D)`; the device argument is read-only context, so a
closure is embedded as a state transformer on the gradients state `σ`. -/
structure Tape (σ : Type) where
  grads : σ
  gradFns : List (σ → σ)

/-- `Tape::add_grad_fn` pushes a closure onto `grad_fns` (`Vec::push`). -/
def Tape.addGradFn {σ : Type} (t : Tape σ) (f : σ → σ) : Tape σ :=
  { t with gradFns := t.gradFns ++ [f] }

/-- `Tape::backward` drains `grad_fns` and invokes each closure in reverse
insertion order on the gradients state (`self.grad_fns.drain(..).rev()`). -/
def Tape.backward {σ : Type} (t : Tape σ) : Tape σ :=
  { grads := t.gradFns.reverse.foldl (fun g f => f g) t.grads, gradFns := [] }

/-- `Tape::backward_seeded(buf)` (`src/autograd.rs`): obtain the gradient
buffer for `buf`'s identity through the gradients cache
(`self.grads.get_like(buf)`, a `Cache::get` with a no-op graph callback),
write `vec![T::one(); out.len()]` into it, then run `backward()`. The value
`one` is the multiplicative identity of the element type. -/
def backwardSeeded {α : Type} [Inhabited α] (one : α) (t : Tape (State α)) (ident : Ident) :
    Except DevError (Tape (State α)) :=
  match cacheGet ident (fun g => g) t.grads with
  | Except.error e => Except.error e
  | Except.ok (out, g1) =>
    Except.ok (Tape.backward
      { grads := writeBuf out (List.replicate out.len one) g1, gradFns := t.gradFns })

/-- `to_unified` (`src/devices/opencl/unified.rs`): create an OpenCL buffer
aliasing the host pointer of `noDrop` (the opaque `create_buffer` call either
yields a fresh device handle or fails, modelled by `clOk`), then insert the
shared allocation into the device cache at the current identity, replacing —
and thereby dropping the cache's reference to — any previous entry there. -/
def toUnified {α : Type} (clOk : Bool) (noDropLen : Nat) (noDropData : List α)
    (s : State α) : Except DevError Nat × State α :=
  if clOk then
    let clPtr := s.nextAlloc
    let s1 : State α :=
      { s with
        heap := aupdate clPtr noDropData s.heap
        rc := aupdate clPtr 1 s.rc
        nextAlloc := clPtr + 1
        nodes := aupdate s.count (clPtr, noDropLen) s.nodes }
    let s2 := match alookup s.count s.nodes with
      | some (oldId, _) => rcDecrFree oldId s1
      | none => s1
    (Except.ok clPtr, s2)
  else (Except.error DevError.ApiError, s)

/-- The conversion path of `construct_buffer` taken when the buffer was not
already converted: `device.graph().add(len, add_node)` appends a graph node
with the given dependencies, then `to_unified` converts and `bump_count()`
advances the counter. -/
def constructMiss {α : Type} (clOk : Bool) (noDropLen : Nat) (noDropData : List α)
    (deps : List Nat) (s : State α) : Except DevError Buffer × State α :=
  let s1 : State α :=
    { s with graph := s.graph ++ [{ idx := s.graph.length, deps := deps, len := noDropLen }] }
  match toUnified clOk noDropLen noDropData s1 with
  | (Except.error e, s2) => (Except.error e, s2)
  | (Except.ok clPtr, s2) =>
    (Except.ok { allocId := clPtr, len := noDropLen, flag := AllocFlag.Cache },
      { s2 with count := s2.count + 1 })

/-- `construct_buffer(device, no_drop, add_node)`
(`src/devices/opencl/unified.rs`): reject a `flag == AllocFlag::None` input
with `ConstructError` before touching any state; return the existing cache
entry if the buffer was already converted; otherwise register a graph node,
convert via `to_unified` and bump the counter (the `constructMiss` path). -/
def constructBuffer {α : Type} (clOk : Bool) (noDropFlag : AllocFlag) (noDropLen : Nat)
    (noDropData : List α) (deps : List Nat) (s : State α) :
    Except DevError Buffer × State α :=
  if noDropFlag = AllocFlag.None then (Except.error DevError.ConstructError, s)
  else
    match alookup s.count s.nodes with
    | some (aid, slen) =>
      if slen = noDropLen then
        (Except.ok { allocId := aid, len := noDropLen, flag := noDropFlag }, s)
      else constructMiss clOk noDropLen noDropData deps s
    | none => constructMiss clOk noDropLen noDropData deps s

/-- `Alloc::with_slice` for the CPU (`src/devices/cpu/cpu_device.rs`):
`assert!(!data.is_empty(), "invalid buffer len: 0")`, allocate `data.len()`
elements and `clone_from_slice(data)` into them; the resulting pointer has
`AllocFlag::None`. -/
def withSlice {α : Type} (data : List α) (s : State α) :
    Except DevError (Buffer × State α) :=
  if data.isEmpty then Except.error DevError.InvalidLength
  else
    Except.ok ({ allocId := s.nextAlloc, len := data.length, flag := AllocFlag.None },
      { s with
        heap := aupdate s.nextAlloc data s.heap
        rc := aupdate s.nextAlloc 1 s.rc
        nextAlloc := s.nextAlloc + 1 })

/-- `Buffer::from((&device, data))` on the CPU (`src/buffer/impl_from.rs`):
pointer from `with_slice(data)`, length `data.len()`, graph node from
`add_leaf(len)`. -/
def bufferFromSlice {α : Type} (data : List α) (s : State α) :
    Except DevError (Buffer × State α) :=
  match withSlice data s with
  | Except.error e => Except.error e
  | Except.ok (b, s1) => Except.ok (b, { s1 with graph := addLeaf data.length s1.graph })

/-- A scalar buffer `Buffer<T, ()>` (`src/buffer/num.rs`): the pointer is a
`Num { num }` storing the value directly, there is no device, no graph node
and the flag is `BufFlag::None`. -/
structure NumBuffer (α : Type) where
  num : α
  len : Nat
  device : Option Unit
  flag : AllocFlag

/-- `From<T> for Buffer<T, ()>` (`src/buffer/num.rs`): wrap the value with
`len: 0`, `device: None`, `flag: BufFlag::None`. -/
def numBufferFrom {α : Type} (v : α) : NumBuffer α :=
  { num := v, len := 0, device := none, flag := AllocFlag.None }

/-- `Deref for Buffer<T, ()>`: dereference yields the stored value. -/
def NumBuffer.deref {α : Type} (b : NumBuffer α) : α :=
  b.num

/-- `Buffer::<T, ()>::item`: returns the stored value. -/
def NumBuffer.item {α : Type} (b : NumBuffer α) : α :=
  b.num

/-- The OpenCL kernel cache (`src/devices/opencl/kernel_cache.rs`): a map from
kernel source strings to kernel handles; the opaque
`create_program_with_source`/`build_program`/`create_kernels_in_program`
pipeline is modelled as producing a fresh handle (`nextHandle`), distinct from
every handle already produced. The CUDA kernel cache
(`src/devices/cuda/kernel_cache.rs`) has the same source-keyed structure. -/
structure KernelCache where
  kernelCache : List (String × Nat)
  nextHandle : Nat

/-- `KernelCacheCL::kernel_cache(device, src)` / `KernelCacheCU::kernel`:
return the cached kernel when the source is present, else compile, insert and
return the new kernel. -/
def kernelCacheGet (src : String) (c : KernelCache) : Nat × KernelCache :=
  match alookup src c.kernelCache with
  | some k => (k, c)
  | none =>
    (c.nextHandle,
      { kernelCache := (src, c.nextHandle) :: c.kernelCache, nextHandle := c.nextHandle + 1 })

/-- Number of cache entries for a given kernel source. -/
def kernelEntries (src : String) (c : KernelCache) : Nat :=
  (c.kernelCache.filter (fun p => decide (p.1 = src))).length

/-- An instrumented gradient closure used to observe invocation order: closure
`i` appends its index to the trace held in the gradients state. -/
def emit (i : Nat) : List Nat → List Nat :=
  fun tr => tr ++ [i]

theorem rcIncr_fields {α : Type} (aid : Nat) (s : State α) :
    (rcIncr aid s).count = s.count ∧ (rcIncr aid s).nodes = s.nodes ∧
    (rcIncr aid s).heap = s.heap ∧ (rcIncr aid s).nextAlloc = s.nextAlloc ∧
    (rcIncr aid s).graph = s.graph := by
  unfold rcIncr
  cases alookup aid s.rc <;> simp

theorem rcDecrFree_fields {α : Type} (aid : Nat) (s : State α) :
    (rcDecrFree aid s).count = s.count ∧ (rcDecrFree aid s).nodes = s.nodes ∧
    (rcDecrFree aid s).nextAlloc = s.nextAlloc ∧ (rcDecrFree aid s).graph = s.graph := by
  unfold rcDecrFree
  cases h : alookup aid s.rc with
  | none => simp
  | some n =>
    by_cases hn : n ≤ 1 <;> simp [hn]

theorem cacheMiss_ok {α : Type} [Inhabited α] {ident : Ident}
    {addNode : List GraphNode → List GraphNode} {s : State α} {old : Option Nat}
    {b : Buffer} {s' : State α}
    (h : cacheMiss ident addNode s old = Except.ok (b, s')) :
    b = { allocId := s.nextAlloc, len := ident.len, flag := AllocFlag.Cache } ∧
    s'.count = s.count ∧
    s'.nodes = aupdate ident.count (s.nextAlloc, ident.len) s.nodes := by
  by_cases hz : ident.len = 0
  · rw [cacheMiss, if_pos hz] at h
    exact absurd h (by simp)
  · rw [cacheMiss, if_neg hz] at h
    cases old with
    | none =>
      have hb : b = { allocId := s.nextAlloc, len := ident.len, flag := AllocFlag.Cache } := by
        have := congrArg (fun x => match x with
          | Except.ok (p : Buffer × State α) => p.1
          | Except.error _ => b) h
        simpa using this.symm
      have hs : s' = { s with
          heap := aupdate s.nextAlloc (List.replicate ident.len default) s.heap
          rc := aupdate s.nextAlloc 2 s.rc
          nextAlloc := s.nextAlloc + 1
          graph := addNode s.graph
          nodes := aupdate ident.count (s.nextAlloc, ident.len) s.nodes } := by
        have := congrArg (fun x => match x with
          | Except.ok (p : Buffer × State α) => p.2
          | Except.error _ => s') h
        simpa using this.symm
      subst hs
      exact ⟨hb, rfl, rfl⟩
    | some oldId =>
      have hb : b = { allocId := s.nextAlloc, len := ident.len, flag := AllocFlag.Cache } := by
        have := congrArg (fun x => match x with
          | Except.ok (p : Buffer × State α) => p.1
          | Except.error _ => b) h
        simpa using this.symm
      have hs : s' = rcDecrFree oldId { s with
          heap := aupdate s.nextAlloc (List.replicate ident.len default) s.heap
          rc := aupdate s.nextAlloc 2 s.rc
          nextAlloc := s.nextAlloc + 1
          graph := addNode s.graph
          nodes := aupdate ident.count (s.nextAlloc, ident.len) s.nodes } := by
        have := congrArg (fun x => match x with
          | Except.ok (p : Buffer × State α) => p.2
          | Except.error _ => s') h
        simpa using this.symm
      subst hs
      refine ⟨hb, ?_, ?_⟩
      · exact (rcDecrFree_fields _ _).1
      · exact (rcDecrFree_fields _ _).2.1

theorem cacheGet_ok_of_pos {α : Type} [Inhabited α] (ident : Ident)
    (addNode : List GraphNode → List GraphNode) (s : State α) (h : 0 < ident.len) :
    ∃ b s', cacheGet ident addNode s = Except.ok (b, s') ∧
      b.len = ident.len ∧ b.flag = AllocFlag.Cache := by
  have hz : ¬ident.len = 0 := Nat.pos_iff_ne_zero.mp h
  unfold cacheGet
  split
  · rename_i aid slen heq
    by_cases hs : slen = ident.len
    · rw [if_pos hs]
      exact ⟨_, _, rfl, hs, rfl⟩
    · rw [if_neg hs, cacheMiss, if_neg hz]
      exact ⟨_, _, rfl, rfl, rfl⟩
  · rw [cacheMiss, if_neg hz]
    exact ⟨_, _, rfl, rfl, rfl⟩

theorem backward_foldl_emit (ids : List Nat) (tr : List Nat) :
    (ids.map emit).reverse.foldl (fun g f => f g) tr = tr ++ ids.reverse := by
  induction ids generalizing tr with
  | nil => simp
  | cons i ids ih =>
    have hrev : ((i :: ids).map emit).reverse = (ids.map emit).reverse ++ [emit i] := by
      simp
    rw [hrev, List.foldl_append, ih]
    simp [emit]

/-- C5: gradient closures pushed in order A, B, C are each invoked exactly
once by `Tape::backward`, in strict reverse order C, B, A (in general: the
invocation trace of any list of pushed closures is the reverse of the push
order), `grad_fns` is empty afterwards, and on an empty tape `backward`
invokes nothing and does not fail. -/
theorem tape_backward_reverse_order :
    (∀ a b c : Nat,
      Tape.backward ((((⟨[], []⟩ : Tape (List Nat)).addGradFn (emit a)).addGradFn
          (emit b)).addGradFn (emit c)) =
        ⟨[c, b, a], []⟩) ∧
    (∀ (ids : List Nat) (tr : List Nat),
      Tape.backward (⟨tr, ids.map emit⟩ : Tape (List Nat)) = ⟨tr ++ ids.reverse, []⟩) ∧
    (∀ (σ : Type) (g : σ), Tape.backward (⟨g, []⟩ : Tape σ) = ⟨g, []⟩) := by
  refine ⟨?_, ?_, ?_⟩
  · intro a b c
    simp [Tape.backward, Tape.addGradFn, emit]
  · intro ids tr
    show (⟨(ids.map emit).reverse.foldl (fun g f => f g) tr, []⟩ : Tape (List Nat)) =
      ⟨tr ++ ids.reverse, []⟩
    rw [backward_foldl_emit]
  · intro σ g
    simp [Tape.backward]

theorem constructMiss_ne_constructError {α : Type} (clOk : Bool) (len : Nat)
    (data : List α) (deps : List Nat) (s : State α) :
    (constructMiss clOk len data deps s).1 ≠ Except.error DevError.ConstructError := by
  cases clOk <;> simp [constructMiss, toUnified]

/-- C7: `construct_buffer` returns `ConstructError` exactly when the input
buffer's allocation flag is `AllocFlag::None`, and in that case the device
state (cache, graph, counter) is returned unmodified; a cache-owned input
never produces `ConstructError`. -/
theorem construct_buffer_error_iff {α : Type} (clOk : Bool) (flag : AllocFlag)
    (len : Nat) (data : List α) (deps : List Nat) (s : State α) :
    ((constructBuffer clOk flag len data deps s).1 = Except.error DevError.ConstructError ↔
      flag = AllocFlag.None) ∧
    (flag = AllocFlag.None → (constructBuffer clOk flag len data deps s).2 = s) := by
  by_cases hflag : flag = AllocFlag.None
  · subst hflag
    simp [constructBuffer]
  · refine ⟨⟨fun h => ?_, fun h => absurd h hflag⟩, fun h => absurd h hflag⟩
    rw [constructBuffer, if_neg hflag] at h
    revert h
    split
    · rename_i aid slen heq
      by_cases hs : slen = len
      · rw [if_pos hs]
        intro h
        exact absurd h (by simp)
      · rw [if_neg hs]
        intro h
        exact ((constructMiss_ne_constructError clOk len data deps s) h).elim
    · intro h
      exact ((constructMiss_ne_constructError clOk len data deps s) h).elim

/-- C4: an allocation request of length 0 — direct `alloc(0)` on the CPU,
OpenCL or CUDA backend, or a cache get with `len == 0` — fails with
`InvalidLength` rather than returning a usable buffer. -/
theorem zero_length_rejected :
    cpuAlloc Int 0 = Except.error DevError.InvalidLength ∧
    clAlloc 0 = Except.error DevError.InvalidLength ∧
    cudaAlloc 0 = Except.error DevError.InvalidLength ∧
    ∀ (s : State Int) (cnt : Nat) (addNode : List GraphNode → List GraphNode),
      (∀ aid slen, alookup cnt s.nodes = some (aid, slen) → 0 < slen) →
      cacheGet { count := cnt, len := 0 } addNode s =
        Except.error DevError.InvalidLength := by
  refine ⟨rfl, rfl, rfl, ?_⟩
  intro s cnt addNode hwf
  unfold cacheGet
  split
  · rename_i aid slen heq
    have hne : ¬slen = ({ count := cnt, len := 0 } : Ident).len := by
      simpa using Nat.pos_iff_ne_zero.mp (hwf aid slen heq)
    rw [if_neg hne, cacheMiss]
    simp
  · rw [cacheMiss]
    simp

/-- Witness for C4: the cache-get conjunct applied to the empty device
state. -/
theorem zero_length_rejected_witness :
    (∀ aid slen, alookup 0 (initState Int).nodes = some (aid, slen) → 0 < slen) ∧
    cacheGet { count := 0, len := 0 } (addLeaf 0) (initState Int) =
      Except.error DevError.InvalidLength := by
  have hwf : ∀ aid slen, alookup 0 (initState Int).nodes = some (aid, slen) → 0 < slen := by
    intro aid slen h
    simp [alookup, initState] at h
  exact ⟨hwf, zero_length_rejected.2.2.2 (initState Int) 0 (addLeaf 0) hwf⟩

/-- C8: on the CPU device, constructing a buffer from host data and then
reading it is the identity on the data: for every non-empty input slice,
`Buffer::from((&device, data))` followed by `read()` returns exactly the
elements of `data`, in order. -/
theorem cpu_read_roundtrip {α : Type} (data : List α) (s : State α) (h : data ≠ []) :
    ∃ b s',
      bufferFromSlice data s = Except.ok (b, s') ∧
      readBuf b s' = data ∧ b.len = data.length ∧ b.flag = AllocFlag.None := by
  have hne : data.isEmpty = false := by
    cases data with
    | nil => exact absurd rfl h
    | cons x xs => rfl
  refine ⟨{ allocId := s.nextAlloc, len := data.length, flag := AllocFlag.None },
    { s with
      heap := aupdate s.nextAlloc data s.heap
      rc := aupdate s.nextAlloc 1 s.rc
      nextAlloc := s.nextAlloc + 1
      graph := addLeaf data.length s.graph }, ?_, ?_, rfl, rfl⟩
  · simp [bufferFromSlice, withSlice, hne]
  · simp [readBuf, alookup_aupdate_self]

/-- Witness for C8 at the spec's example buffer `[5, 7, 2, 10]`. -/
theorem cpu_read_roundtrip_witness :
    ([5, 7, 2, 10] : List Int) ≠ [] ∧
    ∃ b s',
      bufferFromSlice ([5, 7, 2, 10] : List Int) (initState Int) = Except.ok (b, s') ∧
      readBuf b s' = [5, 7, 2, 10] ∧ b.len = ([5, 7, 2, 10] : List Int).length ∧
      b.flag = AllocFlag.None :=
  ⟨by decide, cpu_read_roundtrip [5, 7, 2, 10] (initState Int) (by decide)⟩

/-- C3: on a cache hit (identity present with matching stored length),
`Cache::get` returns a buffer wrapping the existing shared allocation with
`flag = Cache`, performs no new physical allocation, and leaves the
dependency graph unchanged whatever the add-node callback is; the callback is
invoked exactly on the miss (allocate) path. -/
theorem cache_hit_frame {α : Type} [Inhabited α] (s : State α) (ident : Ident) (aid : Nat)
    (addNode : List GraphNode → List GraphNode)
    (hhit : alookup ident.count s.nodes = some (aid, ident.len)) :
    cacheGet ident addNode s =
      Except.ok ({ allocId := aid, len := ident.len, flag := AllocFlag.Cache }, rcIncr aid s) ∧
    (rcIncr aid s).graph = s.graph ∧ (rcIncr aid s).nextAlloc = s.nextAlloc ∧
    (rcIncr aid s).heap = s.heap ∧ (rcIncr aid s).nodes = s.nodes ∧
    ∀ (t : State α) (id2 : Ident) (f : List GraphNode → List GraphNode),
      (∀ a l, alookup id2.count t.nodes = some (a, l) → l ≠ id2.len) → 0 < id2.len →
      ∃ b2 t2, cacheGet id2 f t = Except.ok (b2, t2) ∧ t2.graph = f t.graph := by
  refine ⟨?_, (rcIncr_fields aid s).2.2.2.2, (rcIncr_fields aid s).2.2.2.1,
    (rcIncr_fields aid s).2.2.1, (rcIncr_fields aid s).2.1, ?_⟩
  · unfold cacheGet
    rw [hhit]
    simp
  · intro t id2 f hmiss hpos
    have hz : ¬id2.len = 0 := Nat.pos_iff_ne_zero.mp hpos
    unfold cacheGet
    split
    · rename_i a l heq
      have hne : ¬l = id2.len := hmiss a l heq
      rw [if_neg hne, cacheMiss, if_neg hz]
      exact ⟨_, _, rfl, (rcDecrFree_fields _ _).2.2.2⟩
    · rw [cacheMiss, if_neg hz]
      exact ⟨_, _, rfl, rfl⟩

/-- Witness for C3: a hit on a device whose cache holds allocation 5 of
length 4 at slot 0. -/
theorem cache_hit_frame_witness :
    cacheGet { count := 0, len := 4 } (addLeaf 4)
        { count := 1, nodes := [(0, (5, 4))], heap := [(5, ([0, 0, 0, 0] : List Int))],
          rc := [(5, 1)], nextAlloc := 6, graph := [] } =
      Except.ok
        ({ allocId := 5, len := 4, flag := AllocFlag.Cache },
          rcIncr 5
            { count := 1, nodes := [(0, (5, 4))], heap := [(5, ([0, 0, 0, 0] : List Int))],
              rc := [(5, 1)], nextAlloc := 6, graph := [] }) :=
  (cache_hit_frame
    { count := 1, nodes := [(0, (5, 4))], heap := [(5, ([0, 0, 0, 0] : List Int))],
      rc := [(5, 1)], nextAlloc := 6, graph := [] }
    { count := 0, len := 4 } 5 (addLeaf 4) (by decide)).1

/-- C6: `Tape::backward_seeded(buf)` first obtains the gradient buffer for
the output's identity and writes the multiplicative identity into every one
of its `len()` elements, and only then runs `backward()`; with no grad
closures on the tape it completes as a no-op without error. -/
theorem backward_seeded_seeds_then_runs {α : Type} [Inhabited α] (one : α)
    (t : Tape (State α)) (ident : Ident) (hpos : 0 < ident.len) :
    ∃ out g1,
      cacheGet ident (fun g => g) t.grads = Except.ok (out, g1) ∧
      out.len = ident.len ∧
      backwardSeeded one t ident =
        Except.ok (Tape.backward
          { grads := writeBuf out (List.replicate out.len one) g1, gradFns := t.gradFns }) ∧
      readBuf out (writeBuf out (List.replicate out.len one) g1) =
        List.replicate out.len one ∧
      (t.gradFns = [] →
        backwardSeeded one t ident =
          Except.ok { grads := writeBuf out (List.replicate out.len one) g1,
                      gradFns := ([] : List (State α → State α)) }) := by
  obtain ⟨out, g1, hget, hlen, hflag⟩ := cacheGet_ok_of_pos ident (fun g => g) t.grads hpos
  refine ⟨out, g1, hget, hlen, ?_, ?_, ?_⟩
  · rw [backwardSeeded, hget]
  · simp [readBuf, writeBuf, alookup_aupdate_self]
  · intro hnil
    rw [backwardSeeded, hget]
    simp [Tape.backward, hnil]

/-- Witness for C6: seeding a gradient buffer of length 3 on an empty tape. -/
theorem backward_seeded_witness :
    ∃ out g1,
      cacheGet { count := 0, len := 3 } (fun g => g)
          ((⟨initState Int, []⟩ : Tape (State Int)).grads) = Except.ok (out, g1) ∧
      out.len = ({ count := 0, len := 3 } : Ident).len ∧
      backwardSeeded 1 (⟨initState Int, []⟩ : Tape (State Int)) { count := 0, len := 3 } =
        Except.ok (Tape.backward
          { grads := writeBuf out (List.replicate out.len 1) g1,
            gradFns := (⟨initState Int, []⟩ : Tape (State Int)).gradFns }) ∧
      readBuf out (writeBuf out (List.replicate out.len 1) g1) =
        List.replicate out.len 1 ∧
      ((⟨initState Int, []⟩ : Tape (State Int)).gradFns = [] →
        backwardSeeded 1 (⟨initState Int, []⟩ : Tape (State Int)) { count := 0, len := 3 } =
          Except.ok { grads := writeBuf out (List.replicate out.len 1) g1,
                      gradFns := ([] : List (State Int → State Int)) }) :=
  backward_seeded_seeds_then_runs 1 ⟨initState Int, []⟩ { count := 0, len := 3 } (by decide)

/-- C9: `Buffer::from(v)` for a scalar produces a buffer with length 0, no
device, the value stored directly, and value-like dereference and `item()`
both yielding `v`. -/
theorem scalar_buffer_from {α : Type} (v : α) :
    (numBufferFrom v).len = 0 ∧ (numBufferFrom v).device = none ∧
    (numBufferFrom v).num = v ∧ (numBufferFrom v).deref = v ∧
    (numBufferFrom v).item = v :=
  ⟨rfl, rfl, rfl, rfl, rfl⟩

theorem alookup_mem {κ β : Type} [DecidableEq κ] {k : κ} {v : β} {l : List (κ × β)}
    (h : alookup k l = some v) : (k, v) ∈ l := by
  induction l with
  | nil => exact absurd h (by simp [alookup])
  | cons p rest ih =>
    obtain ⟨p1, p2⟩ := p
    simp only [alookup] at h
    by_cases hp : p1 = k
    · subst hp
      rw [if_pos rfl] at h
      obtain rfl : p2 = v := Option.some.inj h
      exact List.mem_cons_self _ _
    · rw [if_neg hp] at h
      exact List.mem_cons_of_mem _ (ih h)

theorem alookup_eq_none_of_not_mem {κ β : Type} [DecidableEq κ] {k : κ} {l : List (κ × β)}
    (h : k ∉ l.map Prod.fst) : alookup k l = none := by
  induction l with
  | nil => rfl
  | cons p rest ih =>
    simp only [List.map_cons, List.mem_cons] at h
    push_neg at h
    obtain ⟨h1, h2⟩ := h
    simp only [alookup]
    rw [if_neg (fun hc => h1 hc.symm)]
    exact ih h2

theorem afilter_len_zero {κ β : Type} [DecidableEq κ] {k : κ} {l : List (κ × β)}
    (h : alookup k l = none) : (l.filter (fun p => decide (p.1 = k))).length = 0 := by
  induction l with
  | nil => rfl
  | cons p rest ih =>
    simp only [alookup] at h
    by_cases hp : p.1 = k
    · rw [if_pos hp] at h
      exact absurd h (by simp)
    · rw [if_neg hp] at h
      simpa [List.filter_cons, hp] using ih h

theorem afilter_len_pos {κ β : Type} [DecidableEq κ] {k : κ} {v : β} {l : List (κ × β)}
    (h : alookup k l = some v) : 1 ≤ (l.filter (fun p => decide (p.1 = k))).length := by
  induction l with
  | nil => exact absurd h (by simp [alookup])
  | cons p rest ih =>
    simp only [alookup] at h
    by_cases hp : p.1 = k
    · rw [List.filter_cons, if_pos (by simpa using hp)]
      exact Nat.succ_le_succ (Nat.zero_le _)
    · rw [if_neg hp] at h
      simpa [List.filter_cons, hp] using ih h

theorem afilter_len_le_one {κ β : Type} [DecidableEq κ] (k : κ) (l : List (κ × β))
    (hnodup : (l.map Prod.fst).Nodup) :
    (l.filter (fun p => decide (p.1 = k))).length ≤ 1 := by
  induction l with
  | nil => exact Nat.zero_le 1
  | cons p rest ih =>
    rw [List.map_cons, List.nodup_cons] at hnodup
    obtain ⟨hnotin, hrest⟩ := hnodup
    by_cases hp : p.1 = k
    · have hnone : alookup k rest = none := by
        apply alookup_eq_none_of_not_mem
        rw [← hp]
        exact hnotin
      have hzero := afilter_len_zero (k := k) (l := rest) hnone
      rw [List.filter_cons, if_pos (by simpa using hp), List.length_cons, hzero]
    · simpa [List.filter_cons, hp] using ih hrest

/-- C10: the kernel cache is idempotent per source string: a second call with
the same source returns the same kernel handle and leaves the cache
unchanged (one entry per distinct source), while a not-yet-compiled distinct
source yields a distinct handle and one new entry, leaving the first source's
single entry in place. -/
theorem kernel_cache_idempotent (c : KernelCache) (src src2 : String)
    (hwf : ∀ p ∈ c.kernelCache, p.2 < c.nextHandle)
    (hnodup : (c.kernelCache.map Prod.fst).Nodup)
    (hne2 : src2 ≠ src)
    (hfresh : alookup src2 (kernelCacheGet src c).2.kernelCache = none) :
    (kernelCacheGet src (kernelCacheGet src c).2).1 = (kernelCacheGet src c).1 ∧
    (kernelCacheGet src (kernelCacheGet src c).2).2 = (kernelCacheGet src c).2 ∧
    kernelEntries src (kernelCacheGet src c).2 = 1 ∧
    (kernelCacheGet src2 (kernelCacheGet src c).2).1 ≠ (kernelCacheGet src c).1 ∧
    kernelEntries src2 (kernelCacheGet src2 (kernelCacheGet src c).2).2 = 1 ∧
    kernelEntries src (kernelCacheGet src2 (kernelCacheGet src c).2).2 = 1 := by
  cases hl : alookup src c.kernelCache with
  | some k =>
    have hc1 : kernelCacheGet src c = (k, c) := by
      rw [kernelCacheGet, hl]
    have hone : kernelEntries src c = 1 :=
      Nat.le_antisymm (afilter_len_le_one src c.kernelCache hnodup) (afilter_len_pos hl)
    rw [hc1] at hfresh ⊢
    have hc2 : kernelCacheGet src2 c =
        (c.nextHandle,
          { kernelCache := (src2, c.nextHandle) :: c.kernelCache,
            nextHandle := c.nextHandle + 1 }) := by
      rw [kernelCacheGet, hfresh]
    refine ⟨?_, ?_, hone, ?_, ?_, ?_⟩
    · rw [hc1]
    · rw [hc1]
    · rw [hc2]
      have hk : k < c.nextHandle := hwf (src, k) (alookup_mem hl)
      show c.nextHandle ≠ k
      omega
    · rw [hc2, kernelEntries]
      rw [List.filter_cons, if_pos (by simp), List.length_cons,
        afilter_len_zero (k := src2) hfresh]
    · rw [hc2, kernelEntries]
      rw [List.filter_cons, if_neg (by simpa using hne2)]
      exact hone
  | none =>
    have hc1 : kernelCacheGet src c =
        (c.nextHandle,
          { kernelCache := (src, c.nextHandle) :: c.kernelCache,
            nextHandle := c.nextHandle + 1 }) := by
      rw [kernelCacheGet, hl]
    rw [hc1] at hfresh ⊢
    have hl1 : alookup src ((src, c.nextHandle) :: c.kernelCache) = some c.nextHandle := by
      simp [alookup]
    have hagain : kernelCacheGet src
        ({ kernelCache := (src, c.nextHandle) :: c.kernelCache,
           nextHandle := c.nextHandle + 1 } : KernelCache) = (c.nextHandle,
          { kernelCache := (src, c.nextHandle) :: c.kernelCache,
            nextHandle := c.nextHandle + 1 }) := by
      rw [kernelCacheGet]
      simp only [hl1]
    have hc2 : kernelCacheGet src2
        ({ kernelCache := (src, c.nextHandle) :: c.kernelCache,
           nextHandle := c.nextHandle + 1 } : KernelCache) = (c.nextHandle + 1,
          { kernelCache := (src2, c.nextHandle + 1) :: (src, c.nextHandle) :: c.kernelCache,
            nextHandle := c.nextHandle + 2 }) := by
      rw [kernelCacheGet]
      simp only [hfresh]
    have hzero : kernelEntries src c = 0 := afilter_len_zero hl
    have hone : kernelEntries src
        ({ kernelCache := (src, c.nextHandle) :: c.kernelCache,
           nextHandle := c.nextHandle + 1 } : KernelCache) = 1 := by
      rw [kernelEntries, List.filter_cons, if_pos (by simp), List.length_cons]
      rw [kernelEntries] at hzero
      rw [hzero]
    refine ⟨?_, ?_, hone, ?_, ?_, ?_⟩
    · rw [hagain]
    · rw [hagain]
    · rw [hc2]
      simp
    · rw [hc2, kernelEntries, List.filter_cons, if_pos (by simp), List.length_cons,
        afilter_len_zero (k := src2) hfresh]
    · rw [hc2, kernelEntries, List.filter_cons, if_neg (by simpa using hne2)]
      exact hone

/-- C2: a cache request at a slot whose stored length differs from the
requested one allocates and returns a new allocation, the old allocation is
no longer returned from the map at that slot, and the old allocation stays
valid while the previously returned buffer still holds a shared reference to
it; it is freed exactly when that last holder is dropped. -/
theorem shape_change_invalidation {α : Type} [Inhabited α] (s : State α)
    (cnt oldId oldLen newLen : Nat) (b : Buffer)
    (addNode : List GraphNode → List GraphNode) (data : List α)
    (hlook : alookup cnt s.nodes = some (oldId, oldLen))
    (hne : oldLen ≠ newLen) (hpos : 0 < newLen)
    (hbid : b.allocId = oldId) (hbflag : b.flag = AllocFlag.Cache)
    (hrc : alookup oldId s.rc = some 2)
    (hheap : alookup oldId s.heap = some data)
    (hbound : oldId < s.nextAlloc) :
    ∃ b' s',
      cacheGet { count := cnt, len := newLen } addNode s = Except.ok (b', s') ∧
      b'.allocId = s.nextAlloc ∧ b'.allocId ≠ oldId ∧
      alookup cnt s'.nodes = some (b'.allocId, newLen) ∧
      alookup oldId s'.rc = some 1 ∧
      alookup oldId s'.heap = some data ∧
      alookup oldId (dropBuffer b s').rc = none ∧
      alookup oldId (dropBuffer b s').heap = none := by
  have hnn : oldId ≠ s.nextAlloc := Nat.ne_of_lt hbound
  have hz : ¬({ count := cnt, len := newLen } : Ident).len = 0 :=
    Nat.pos_iff_ne_zero.mp hpos
  set s1 : State α := { s with
      heap := aupdate s.nextAlloc (List.replicate newLen default) s.heap
      rc := aupdate s.nextAlloc 2 s.rc
      nextAlloc := s.nextAlloc + 1
      graph := addNode s.graph
      nodes := aupdate cnt (s.nextAlloc, newLen) s.nodes } with hs1
  have hrc1 : alookup oldId s1.rc = some 2 := by
    rw [hs1]
    exact (alookup_aupdate_ne 2 s.rc hnn).trans hrc
  have hget : cacheGet { count := cnt, len := newLen } addNode s =
      Except.ok ({ allocId := s.nextAlloc, len := newLen, flag := AllocFlag.Cache },
        rcDecrFree oldId s1) := by
    simp only [cacheGet, hlook]
    rw [if_neg hne, cacheMiss, if_neg hz]
  set s2 := rcDecrFree oldId s1 with hs2
  have hs2eq : s2 = { s1 with rc := aupdate oldId 1 s1.rc } := by
    rw [hs2]
    unfold rcDecrFree
    rw [hrc1]
    simp
  have h5 : alookup oldId s2.rc = some 1 := by
    rw [hs2eq]
    exact alookup_aupdate_self oldId 1 s1.rc
  have hdropb : dropBuffer b s2 = rcDecrFree oldId s2 := by
    simp only [dropBuffer, hbflag, hbid]
  have hsecond : rcDecrFree oldId s2 =
      { s2 with rc := aremove oldId s2.rc, heap := aremove oldId s2.heap } := by
    unfold rcDecrFree
    rw [h5]
    simp
  refine ⟨{ allocId := s.nextAlloc, len := newLen, flag := AllocFlag.Cache }, s2,
    hget, rfl, Ne.symm hnn, ?_, h5, ?_, ?_, ?_⟩
  · rw [hs2eq, hs1]
    exact alookup_aupdate_self cnt (s.nextAlloc, newLen) s.nodes
  · rw [hs2eq, hs1]
    exact (alookup_aupdate_ne _ s.heap hnn).trans hheap
  · rw [hdropb, hsecond]
    exact alookup_aremove_self oldId s2.rc
  · rw [hdropb, hsecond]
    exact alookup_aremove_self oldId s2.heap

/-- Witness for C2: slot 0 stores allocation 0 of length 4, a buffer still
references it, and a request of length 5 arrives. -/
theorem shape_change_invalidation_witness :
    ∃ b' s',
      cacheGet { count := 0, len := 5 } (addLeaf 5)
          { count := 0, nodes := [(0, (0, 4))], heap := [(0, ([7, 7, 7, 7] : List Int))],
            rc := [(0, 2)], nextAlloc := 1, graph := [] } = Except.ok (b', s') ∧
      b'.allocId = 1 ∧ b'.allocId ≠ 0 ∧
      alookup 0 s'.nodes = some (b'.allocId, 5) ∧
      alookup 0 s'.rc = some 1 ∧
      alookup 0 s'.heap = some ([7, 7, 7, 7] : List Int) ∧
      alookup 0 (dropBuffer { allocId := 0, len := 4, flag := AllocFlag.Cache } s').rc = none ∧
      alookup 0 (dropBuffer { allocId := 0, len := 4, flag := AllocFlag.Cache } s').heap =
        none :=
  shape_change_invalidation
    { count := 0, nodes := [(0, (0, 4))], heap := [(0, ([7, 7, 7, 7] : List Int))],
      rc := [(0, 2)], nextAlloc := 1, graph := [] }
    0 0 4 5 { allocId := 0, len := 4, flag := AllocFlag.Cache } (addLeaf 5) [7, 7, 7, 7]
    (by decide) (by decide) (by decide) rfl rfl (by decide) (by decide) (by decide)

theorem cacheGet_hit {α : Type} [Inhabited α] (ident : Ident)
    (addNode : List GraphNode → List GraphNode) (s : State α) (aid : Nat)
    (hhit : alookup ident.count s.nodes = some (aid, ident.len)) :
    cacheGet ident addNode s =
      Except.ok ({ allocId := aid, len := ident.len, flag := AllocFlag.Cache },
        rcIncr aid s) := by
  unfold cacheGet
  rw [hhit]
  simp

theorem cached_ok {α : Type} [Inhabited α] {len : Nat} {s : State α} {b : Buffer}
    {s' : State α} (h : cached len s = Except.ok (b, s')) :
    alookup s.count s'.nodes = some (b.allocId, len) ∧ b.len = len ∧
    b.flag = AllocFlag.Cache ∧ s'.count = s.count + 1 ∧
    ∀ c, c ≠ s.count → alookup c s'.nodes = alookup c s.nodes := by
  unfold cached cacheGet at h
  split at h
  · rename_i aid slen heq
    by_cases hsl : slen = len
    · rw [if_pos (show slen = ({ count := s.count, len := len } : Ident).len from hsl)] at h
      simp only [Except.ok.injEq, Prod.mk.injEq] at h
      obtain ⟨hb, hs'⟩ := h
      subst hs'
      subst hb
      subst hsl
      refine ⟨?_, rfl, rfl, (rcIncr_fields aid _).1, ?_⟩
      · rw [(rcIncr_fields aid _).2.1]
        exact heq
      · intro c hc
        rw [(rcIncr_fields aid _).2.1]
    · rw [if_neg (show ¬slen = ({ count := s.count, len := len } : Ident).len from hsl)] at h
      obtain ⟨hb, hcnt, hnodes⟩ := cacheMiss_ok h
      subst hb
      refine ⟨?_, rfl, rfl, hcnt, ?_⟩
      · rw [hnodes]
        exact alookup_aupdate_self _ _ _
      · intro c hc
        rw [hnodes]
        exact alookup_aupdate_ne _ _ hc
  · rename_i heq
    obtain ⟨hb, hcnt, hnodes⟩ := cacheMiss_ok h
    subst hb
    refine ⟨?_, rfl, rfl, hcnt, ?_⟩
    · rw [hnodes]
      exact alookup_aupdate_self _ _ _
    · intro c hc
      rw [hnodes]
      exact alookup_aupdate_ne _ _ hc

theorem runSeq_cons_ok {α : Type} [Inhabited α] {len : Nat} {rest : List Nat} {s : State α}
    {bufs : List Buffer} {s' : State α}
    (h : runSeq (len :: rest) s = Except.ok (bufs, s')) :
    ∃ b s1 bs, cached len s = Except.ok (b, s1) ∧ runSeq rest s1 = Except.ok (bs, s') ∧
      bufs = b :: bs := by
  cases hc : cached len s with
  | error e =>
    simp only [runSeq, hc] at h
    exact Except.noConfusion h
  | ok p =>
    obtain ⟨b, s1⟩ := p
    cases hr : runSeq rest s1 with
    | error e =>
      simp only [runSeq, hc, hr] at h
      exact Except.noConfusion h
    | ok q =>
      obtain ⟨bs, s2⟩ := q
      simp only [runSeq, hc, hr, Except.ok.injEq, Prod.mk.injEq] at h
      obtain ⟨hbufs, hstate⟩ := h
      subst hstate
      subst hbufs
      exact ⟨b, s1, bs, rfl, hr, rfl⟩

theorem runSeq_preserves_lower {α : Type} [Inhabited α] (reqs : List Nat) :
    ∀ (s : State α) (bufs : List Buffer) (s' : State α),
      runSeq reqs s = Except.ok (bufs, s') →
      s'.count = s.count + reqs.length ∧
      ∀ c, c < s.count → alookup c s'.nodes = alookup c s.nodes := by
  induction reqs with
  | nil =>
    intro s bufs s' h
    simp only [runSeq, Except.ok.injEq, Prod.mk.injEq] at h
    obtain ⟨h1, h2⟩ := h
    subst h2
    simp
  | cons len rest ih =>
    intro s bufs s' h
    obtain ⟨b, s1, bs, hc, hr, rfl⟩ := runSeq_cons_ok h
    obtain ⟨hl1, hl2, hl3, hcnt, hframe⟩ := cached_ok hc
    obtain ⟨hcnt', hframe'⟩ := ih s1 bs s' hr
    constructor
    · rw [hcnt', hcnt, List.length_cons]
      omega
    · intro c hclt
      rw [hframe' c (by omega), hframe c (by omega)]

/-- The slot contract tying a request sequence to the returned buffers inside
a cache map: slot `c0 + i` stores request `i`'s allocation, which is the one
the `i`-th returned buffer wraps. -/
def slots (c0 : Nat) : List Nat → List Buffer → List (Nat × (Nat × Nat)) → Prop
  | [], [], _ => True
  | len :: rest, b :: bs, nodes =>
    alookup c0 nodes = some (b.allocId, len) ∧ b.len = len ∧ b.flag = AllocFlag.Cache ∧
    slots (c0 + 1) rest bs nodes
  | _, _, _ => False

theorem runSeq_slots {α : Type} [Inhabited α] (reqs : List Nat) :
    ∀ (s : State α) (bufs : List Buffer) (s' : State α),
      runSeq reqs s = Except.ok (bufs, s') →
      slots s.count reqs bufs s'.nodes := by
  induction reqs with
  | nil =>
    intro s bufs s' h
    simp only [runSeq, Except.ok.injEq, Prod.mk.injEq] at h
    obtain ⟨h1, h2⟩ := h
    subst h1
    exact trivial
  | cons len rest ih =>
    intro s bufs s' h
    obtain ⟨b, s1, bs, hc, hr, rfl⟩ := runSeq_cons_ok h
    obtain ⟨hl1, hl2, hl3, hcnt, hframe⟩ := cached_ok hc
    obtain ⟨hcnt', hframe'⟩ := runSeq_preserves_lower rest s1 bs s' hr
    refine ⟨?_, hl2, hl3, ?_⟩
    · rw [hframe' s.count (by omega), hl1]
    · have hrest := ih s1 bs s' hr
      rw [hcnt] at hrest
      exact hrest

theorem runSeq_replay {α : Type} [Inhabited α] (reqs : List Nat) :
    ∀ (bufs : List Buffer) (s : State α),
      slots s.count reqs bufs s.nodes →
      ∃ s', runSeq reqs s = Except.ok (bufs, s') ∧
        s'.nodes = s.nodes ∧ s'.heap = s.heap ∧ s'.graph = s.graph ∧
        s'.nextAlloc = s.nextAlloc := by
  induction reqs with
  | nil =>
    intro bufs s hs
    cases bufs with
    | nil => exact ⟨s, rfl, rfl, rfl, rfl, rfl⟩
    | cons b bs => exact hs.elim
  | cons len rest ih =>
    intro bufs s hs
    cases bufs with
    | nil => exact hs.elim
    | cons b bs =>
      obtain ⟨ba, bl, bf⟩ := b
      obtain ⟨h1, h2, h3, h4⟩ := hs
      have hbl : bl = len := h2
      have hbf : bf = AllocFlag.Cache := h3
      subst hbl
      subst hbf
      have hhit : alookup ({ count := s.count, len := bl } : Ident).count
          ({ s with count := s.count + 1 } : State α).nodes =
          some (ba, ({ count := s.count, len := bl } : Ident).len) := h1
      have hcache : cached bl s =
          Except.ok (({ allocId := ba, len := bl, flag := AllocFlag.Cache } : Buffer),
            rcIncr ba { s with count := s.count + 1 }) := by
        unfold cached
        exact cacheGet_hit { count := s.count, len := bl } (addLeaf bl)
          { s with count := s.count + 1 } ba hhit
      have h4' : slots (rcIncr ba { s with count := s.count + 1 }).count rest bs
          (rcIncr ba { s with count := s.count + 1 }).nodes := by
        rw [(rcIncr_fields ba _).1, (rcIncr_fields ba _).2.1]
        exact h4
      obtain ⟨s', hrun, hn, hh, hg, hna⟩ := ih bs (rcIncr ba { s with count := s.count + 1 }) h4'
      have hn' : s'.nodes = s.nodes := hn.trans (rcIncr_fields ba _).2.1
      have hh' : s'.heap = s.heap := hh.trans (rcIncr_fields ba _).2.2.1
      have hg' : s'.graph = s.graph := hg.trans (rcIncr_fields ba _).2.2.2.2
      have hna' : s'.nextAlloc = s.nextAlloc := hna.trans (rcIncr_fields ba _).2.2.2.1
      refine ⟨s', ?_, hn', hh', hg', hna'⟩
      simp only [runSeq, hcache, hrun]

/-- C1: replaying a fixed sequence of cache-backed buffer requests after
resetting the identity counter to its start value performs no physical
allocation beyond those of iteration 1 and returns, at every slot, the very
same buffer as iteration 1 — in particular the same physical allocation, so
data written through an iteration 1 buffer stays observable through the
corresponding iteration 2 buffer; the heap, graph and cache map are left
exactly as iteration 1 left them. -/
theorem cache_replay_reuses_allocations {α : Type} [Inhabited α] (reqs : List Nat)
    (s0 : State α) (bufs1 : List Buffer) (s1 : State α)
    (h1 : runSeq reqs s0 = Except.ok (bufs1, s1)) :
    ∃ s2, runSeq reqs (setCount s0.count s1) = Except.ok (bufs1, s2) ∧
      s2.nextAlloc = s1.nextAlloc ∧ s2.heap = s1.heap ∧
      s2.graph = s1.graph ∧ s2.nodes = s1.nodes := by
  have hslots := runSeq_slots reqs s0 bufs1 s1 h1
  have hslots2 : slots (setCount s0.count s1).count reqs bufs1
      (setCount s0.count s1).nodes := hslots
  obtain ⟨s2, hrun, hn, hh, hg, hna⟩ := runSeq_replay reqs bufs1 (setCount s0.count s1) hslots2
  exact ⟨s2, hrun, hna, hh, hg, hn⟩

/-- Witness for C1: a single request of length 10 on the empty device state,
replayed after resetting the counter. -/
theorem cache_replay_witness :
    runSeq [10] (initState Int) =
      Except.ok ([{ allocId := 0, len := 10, flag := AllocFlag.Cache }],
        { count := 1, nodes := [(0, (0, 10))], heap := [(0, List.replicate 10 (0 : Int))],
          rc := [(0, 2)], nextAlloc := 1, graph := [{ idx := 0, deps := [], len := 10 }] }) ∧
    ∃ s2,
      runSeq [10] (setCount (initState Int).count
          { count := 1, nodes := [(0, (0, 10))], heap := [(0, List.replicate 10 (0 : Int))],
            rc := [(0, 2)], nextAlloc := 1, graph := [{ idx := 0, deps := [], len := 10 }] }) =
        Except.ok ([{ allocId := 0, len := 10, flag := AllocFlag.Cache }], s2) ∧
      s2.nextAlloc = 1 ∧ s2.heap = [(0, List.replicate 10 (0 : Int))] ∧
      s2.graph = [{ idx := 0, deps := [], len := 10 }] ∧ s2.nodes = [(0, (0, 10))] :=
  ⟨rfl,
    cache_replay_reuses_allocations [10] (initState Int)
      [{ allocId := 0, len := 10, flag := AllocFlag.Cache }]
      { count := 1, nodes := [(0, (0, 10))], heap := [(0, List.replicate 10 (0 : Int))],
        rc := [(0, 2)], nextAlloc := 1, graph := [{ idx := 0, deps := [], len := 10 }] }
      rfl⟩

/-- Witness for C10: two sources on an initially empty kernel cache. -/
theorem kernel_cache_idempotent_witness :
    (kernelCacheGet "a" (kernelCacheGet "a" ⟨[], 0⟩).2).1 = (kernelCacheGet "a" ⟨[], 0⟩).1 ∧
    (kernelCacheGet "a" (kernelCacheGet "a" ⟨[], 0⟩).2).2 = (kernelCacheGet "a" ⟨[], 0⟩).2 ∧
    kernelEntries "a" (kernelCacheGet "a" ⟨[], 0⟩).2 = 1 ∧
    (kernelCacheGet "b" (kernelCacheGet "a" ⟨[], 0⟩).2).1 ≠ (kernelCacheGet "a" ⟨[], 0⟩).1 ∧
    kernelEntries "b" (kernelCacheGet "b" (kernelCacheGet "a" ⟨[], 0⟩).2).2 = 1 ∧
    kernelEntries "a" (kernelCacheGet "b" (kernelCacheGet "a" ⟨[], 0⟩).2).2 = 1 :=
  kernel_cache_idempotent ⟨[], 0⟩ "a" "b" (by simp) (by simp) (by decide) (by decide)

end Custos
